import Mathlib

/-!
Shallow embedding of the LocalWispr dictation front-end
(`src/src/App.tsx`), covering the state held by the `App` component,
the Tauri event listeners, and the command handlers.  JavaScript string
operations are modelled over the character sequence (`String.data`) of a
Lean string, matching the JS semantics of `length`, `startsWith`,
`slice`, `trim` and `includes` on the strings this program handles.
-/

namespace LocalWispr

/-- JS `s.length`: number of characters of `s`. -/
def jsLength (s : String) : Nat := s.data.length

/-- JS `s.startsWith(pre)`. -/
def jsStartsWith (s pre : String) : Bool := pre.data.isPrefixOf s.data

/-- JS `s.slice(start)`: the characters of `s` from index `start` on. -/
def jsSlice (s : String) (start : Nat) : String := ⟨s.data.drop start⟩

/-- JS `s.trim()`: `s` with leading and trailing whitespace removed. -/
def jsTrim (s : String) : String :=
  ⟨(((s.data.dropWhile Char.isWhitespace).reverse).dropWhile Char.isWhitespace).reverse⟩

/-- Helper for `jsIncludes`: does `sub` occur as a contiguous run in `l`? -/
def listHasRun (sub : List Char) : List Char → Bool
  | [] => sub.isEmpty
  | c :: rest => sub.isPrefixOf (c :: rest) || listHasRun sub rest

/-- JS `s.includes(sub)`: substring containment. -/
def jsIncludes (s sub : String) : Bool := listHasRun sub.data s.data

/-- Payload of the `transcription` / `transcription-complete` / `live-type`
events (interface `TranscriptionEvent` in `App.tsx`). -/
structure TranscriptionEvent where
  text : String
  is_final : Bool
deriving DecidableEq

/-- The two `localStorage` keys the app reads and writes
(`soniox_api_key` and `soniox_api_key_set`); `none` models an absent key. -/
structure Storage where
  sonioxApiKey : Option String
  sonioxApiKeySetFlag : Option String
deriving DecidableEq

/-- The state held by the `App` component: the `useState` values
(`isRecording`, `transcription`, `error`, `apiKeySet`), the refs
(`transcriptionRef` is kept equal to `transcription` by every handler, so
they are one field; `lastTypedTextRef` is `lastTyped`;
`lastRecordingStartRef` is `lastRecordingStart`), and the browser-local
persistent storage. -/
structure AppState where
  isRecording : Bool
  transcription : String
  lastTyped : String
  error : Option String
  apiKeySet : Bool
  lastRecordingStart : Int
  storage : Storage
deriving DecidableEq

/-- Outcome of an awaited `invoke` call: resolves, or rejects with a
message (caught by the surrounding `catch (e)` as `String(e)`). -/
inductive InvokeResult where
  | ok
  | err (msg : String)
deriving DecidableEq

/-- Backend commands issued by the front-end, in issue order.  A
`typeTextCmd` carries whether the OS-level text injection succeeded. -/
inductive Action where
  | startRecordingCmd
  | stopRecordingCmd (reason : String)
  | cancelAndHideCmd (reason : String)
  | hideWindowCmd
  | typeTextCmd (text : String) (succeeded : Bool)
  | setApiKeyCmd (key : String)
  | scheduleStartCmd
deriving DecidableEq

/-- The chunks of text actually injected at the cursor: the payloads of
the successful `type_text` invocations, in order. -/
def injected (acts : List Action) : List String :=
  acts.filterMap fun a =>
    match a with
    | Action.typeTextCmd t true => some t
    | _ => none

/-- Initial component state: the `useState` / `useRef` initialisers of
`App` (empty strings, no error, not recording, start timestamp 0) with an
empty local storage. -/
def initialState : AppState :=
  { isRecording := false
    transcription := ""
    lastTyped := ""
    error := none
    apiKeySet := false
    lastRecordingStart := 0
    storage := { sonioxApiKey := none, sonioxApiKeySetFlag := none } }

/-- The `live-type` listener (`App.tsx` lines 142-159): if the event text
strictly extends what was already typed and starts with it, invoke
`type_text` on the new part; on success advance `lastTypedTextRef`, on
rejection record the error and leave the ref unchanged.  Otherwise do
nothing. -/
def liveTypeStep (r : InvokeResult) (st : AppState) (ev : TranscriptionEvent) :
    AppState × List Action :=
  let newText := ev.text
  let lastTyped := st.lastTyped
  if jsLength lastTyped < jsLength newText ∧ jsStartsWith newText lastTyped then
    let newPart := jsSlice newText (jsLength lastTyped)
    match r with
    | InvokeResult.ok => ({ st with lastTyped := newText }, [Action.typeTextCmd newPart true])
    | InvokeResult.err e => ({ st with error := some e }, [Action.typeTextCmd newPart false])
  else
    (st, [])

/-- The `transcription` (and `transcription-complete`) listener
(`App.tsx` lines 104-118): overwrite the transcription state and ref with
the event text. -/
def transcriptionStep (st : AppState) (ev : TranscriptionEvent) : AppState :=
  { st with transcription := ev.text }

/-- The `recording-state` listener (`App.tsx` lines 120-128): set the
recording flag; when it turns on, stamp `lastRecordingStartRef` with the
current time. -/
def recordingStateStep (st : AppState) (now : Int) (isRec : Bool) : AppState :=
  if isRec then { st with isRecording := true, lastRecordingStart := now }
  else { st with isRecording := false }

/-- The `transcription-error` listener (`App.tsx` lines 130-139): record
the error, mark not recording, and when the message contains `"403"` or
`"Forbidden"` also delete both stored credential keys and drop the
`apiKeySet` flag (which makes the app render the credential setup form). -/
def transcriptionErrorStep (st : AppState) (msg : String) : AppState :=
  let st1 := { st with error := some msg, isRecording := false }
  if jsIncludes msg "403" ∨ jsIncludes msg "Forbidden" then
    { st1 with
      storage := { sonioxApiKey := none, sonioxApiKeySetFlag := none }
      apiKeySet := false }
  else
    st1

/-- `stopRecording(reason)` (`App.tsx` lines 47-53): invoke
`stop_recording`; a rejection is caught and recorded as the error. -/
def stopRecording (r : InvokeResult) (st : AppState) (reason : String) :
    AppState × List Action :=
  match r with
  | InvokeResult.ok => (st, [Action.stopRecordingCmd reason])
  | InvokeResult.err e => ({ st with error := some e }, [Action.stopRecordingCmd reason])

/-- `completeTranscription` (`App.tsx` lines 56-72): trim the tracked
transcription; when non-empty, hide the window and invoke `type_text` on
the whole trimmed text (a rejection is caught and recorded as the error);
when empty, only hide the window.  In every case the transcription state,
`transcriptionRef` and `lastTypedTextRef` are then reset to empty. -/
def completeTranscription (r : InvokeResult) (st : AppState) :
    AppState × List Action :=
  let finalText := jsTrim st.transcription
  let p : AppState × List Action :=
    if finalText = "" then
      (st, [Action.hideWindowCmd])
    else
      match r with
      | InvokeResult.ok =>
          (st, [Action.hideWindowCmd, Action.typeTextCmd finalText true])
      | InvokeResult.err e =>
          ({ st with error := some e },
           [Action.hideWindowCmd, Action.typeTextCmd finalText false])
  ({ p.1 with transcription := "", lastTyped := "" }, p.2)

/-- `stopRecording(reason).then(() => completeTranscription())`: the stop
flow used by the `stop-recording-request` listener and the Ctrl+Enter
shortcut (and by `onStop` in the earlier draft of `App.tsx`). -/
def stopAndComplete (rStop rType : InvokeResult) (st : AppState) (reason : String) :
    AppState × List Action :=
  let p := stopRecording rStop st reason
  let q := completeTranscription rType p.1
  (q.1, p.2 ++ q.2)

/-- `handleApiKeySubmit(apiKey)` (`App.tsx` lines 75-89): invoke
`set_api_key`; on success mark the key as set, write both `localStorage`
keys, and schedule an automatic `startRecording` 100 ms later; a
rejection is caught and recorded as the error. -/
def handleApiKeySubmit (r : InvokeResult) (st : AppState) (apiKey : String) :
    AppState × List Action :=
  match r with
  | InvokeResult.ok =>
      ({ st with
          apiKeySet := true
          storage := { sonioxApiKey := some apiKey, sonioxApiKeySetFlag := some "true" } },
       [Action.setApiKeyCmd apiKey, Action.scheduleStartCmd])
  | InvokeResult.err e =>
      ({ st with error := some e }, [Action.setApiKeyCmd apiKey])

/-- The `onCancel` prop handed to `RecordingPopup` (`App.tsx` lines
280-287): invoke `cancel_and_hide` (a rejection is caught and recorded as
the error) and reset the transcription state, `transcriptionRef` and
`lastTypedTextRef` to empty. -/
def onCancel (r : InvokeResult) (st : AppState) : AppState × List Action :=
  let st1 := { st with transcription := "", lastTyped := "" }
  match r with
  | InvokeResult.ok => (st1, [Action.cancelAndHideCmd "ui:cancel"])
  | InvokeResult.err e =>
      ({ st1 with error := some e }, [Action.cancelAndHideCmd "ui:cancel"])

/-- A keydown DOM event, restricted to the fields `handleKeyDown` reads. -/
structure KeyEvent where
  key : String
  ctrlKey : Bool
  shiftKey : Bool
deriving DecidableEq

/-- `handleKeyDown` (`App.tsx` lines 242-264).  Escape cancels and
resets.  Ctrl+Enter (without Shift) returns without effect unless a
recording is active, the trimmed transcription is non-empty, and at least
1000 ms have passed since the recording started; when all three hold it
stops the recording and completes the transcription.  `now` stands for
`Date.now()`. -/
def handleKeyDown (rEsc rStop rType : InvokeResult) (now : Int) (st : AppState)
    (e : KeyEvent) : AppState × List Action :=
  if e.key = "Escape" then
    let st1 := { st with transcription := "", lastTyped := "" }
    match rEsc with
    | InvokeResult.ok => (st1, [Action.cancelAndHideCmd "ui:escape"])
    | InvokeResult.err e2 =>
        ({ st1 with error := some e2 }, [Action.cancelAndHideCmd "ui:escape"])
  else if e.key = "Enter" ∧ e.ctrlKey ∧ e.shiftKey = false then
    if st.isRecording = false then
      (st, [])
    else if jsTrim st.transcription = "" then
      (st, [])
    else if now - st.lastRecordingStart < 1000 then
      (st, [])
    else
      stopAndComplete rStop rType st "ui:ctrl-enter"
  else
    (st, [])

/-- Fold of the `live-type` listener over a delivered event sequence:
`oracle i` is the outcome of the `type_text` invocation attempted while
handling the `i`-th event.  Returns the final state and every backend
action in emission order. -/
def runLive (oracle : Nat → InvokeResult) :
    Nat → AppState → List TranscriptionEvent → AppState × List Action
  | _, st, [] => (st, [])
  | i, st, ev :: rest =>
    let p := liveTypeStep (oracle i) st ev
    let q := runLive oracle (i + 1) p.1 rest
    (q.1, p.2 ++ q.2)

/-- Delivery of one live transcript event: the backend emits the same
payload on the `transcription` channel and the `live-type` channel, so
one delivered event runs `transcriptionStep` then `liveTypeStep`. -/
def deliverEvent (r : InvokeResult) (st : AppState) (ev : TranscriptionEvent) :
    AppState × List Action :=
  liveTypeStep r (transcriptionStep st ev) ev

/-- Fold of `deliverEvent` over an event sequence. -/
def runDeliver (oracle : Nat → InvokeResult) :
    Nat → AppState → List TranscriptionEvent → AppState × List Action
  | _, st, [] => (st, [])
  | i, st, ev :: rest =>
    let p := deliverEvent (oracle i) st ev
    let q := runDeliver oracle (i + 1) p.1 rest
    (q.1, p.2 ++ q.2)

/-- The render guard (`App.tsx` lines 270-272): when `apiKeySet` is false
the app renders the `ApiKeySetup` form, which asks the user for a new
credential. -/
def rendersApiKeySetup (st : AppState) : Bool := !st.apiKeySet

/-- Concatenation of a list of chunks into one string. -/
def concatChunks : List String → String
  | [] => ""
  | c :: rest => c ++ concatChunks rest

end LocalWispr

namespace LocalWispr

theorem injected_nil : injected [] = [] := rfl

theorem injected_append (a b : List Action) :
    injected (a ++ b) = injected a ++ injected b := by
  simp [injected, List.filterMap_append]

theorem jsStartsWith_empty (s : String) : jsStartsWith s "" = true :=
  List.isPrefixOf_iff_prefix.mpr List.nil_prefix

theorem jsSlice_zero (s : String) : jsSlice s 0 = s := rfl

/-- If `n` starts with `l` then appending the slice of `n` past `l`'s
length to `l` recovers `n`. -/
theorem append_jsSlice_of_startsWith {n l : String}
    (h : jsStartsWith n l = true) : l ++ jsSlice n (jsLength l) = n := by
  have hp : l.data <+: n.data := List.isPrefixOf_iff_prefix.mp h
  have ht : l.data = n.data.take l.data.length := List.prefix_iff_eq_take.mp hp
  apply String.ext
  rw [String.data_append]
  show l.data ++ n.data.drop l.data.length = n.data
  calc l.data ++ n.data.drop l.data.length
      = n.data.take l.data.length ++ n.data.drop l.data.length := by rw [← ht]
    _ = n.data := List.take_append_drop _ _

/-- Outcome analysis of one `live-type` step: either nothing is injected
and the typed state is unchanged, or the event text passed the extension
check, the slice past the typed length is injected, and the typed state
becomes the event text. -/
theorem liveTypeStep_cases (r : InvokeResult) (st : AppState)
    (ev : TranscriptionEvent) :
    ((liveTypeStep r st ev).1.lastTyped = st.lastTyped ∧
      injected (liveTypeStep r st ev).2 = []) ∨
    ((liveTypeStep r st ev).1.lastTyped = ev.text ∧
      injected (liveTypeStep r st ev).2 = [jsSlice ev.text (jsLength st.lastTyped)] ∧
      jsLength st.lastTyped < jsLength ev.text ∧
      jsStartsWith ev.text st.lastTyped = true) := by
  by_cases hg :
      jsLength st.lastTyped < jsLength ev.text ∧ jsStartsWith ev.text st.lastTyped = true
  · cases r with
    | ok =>
      exact Or.inr ⟨by simp [liveTypeStep, hg], by simp [liveTypeStep, hg, injected],
        hg.1, hg.2⟩
    | err e =>
      exact Or.inl ⟨by simp [liveTypeStep, hg], by simp [liveTypeStep, hg, injected]⟩
  · exact Or.inl ⟨by simp [liveTypeStep, hg], by simp [liveTypeStep, hg, injected]⟩

/-- Invariant of the `live-type` fold: the typed state at the end equals
the typed state at the start followed by every successfully injected
chunk, in emission order. -/
theorem runLive_lastTyped (oracle : Nat → InvokeResult) :
    ∀ (evs : List TranscriptionEvent) (i : Nat) (st : AppState),
      (runLive oracle i st evs).1.lastTyped =
        st.lastTyped ++ concatChunks (injected (runLive oracle i st evs).2)
  | [], i, st => by
    simp [runLive, injected_nil, concatChunks, String.append_empty]
  | ev :: rest, i, st => by
    have ih := runLive_lastTyped oracle rest (i + 1) (liveTypeStep (oracle i) st ev).1
    simp only [runLive, injected_append]
    rcases liveTypeStep_cases (oracle i) st ev with ⟨h1, h2⟩ | ⟨h1, h2, _, h4⟩
    · rw [ih, h1, h2, List.nil_append]
    · rw [ih, h1, h2, List.singleton_append, concatChunks,
        ← String.append_assoc, append_jsSlice_of_startsWith h4]

/-- The actions the `live-type` fold emits depend only on the typed-state
component of the starting state (in particular not on the error field). -/
theorem runLive_actions_congr (oracle : Nat → InvokeResult) :
    ∀ (evs : List TranscriptionEvent) (i : Nat) (s t : AppState),
      s.lastTyped = t.lastTyped →
      (runLive oracle i s evs).2 = (runLive oracle i t evs).2 ∧
      (runLive oracle i s evs).1.lastTyped = (runLive oracle i t evs).1.lastTyped
  | [], i, s, t, h => by simp [runLive, h]
  | ev :: rest, i, s, t, h => by
    have hstep :
        (liveTypeStep (oracle i) s ev).2 = (liveTypeStep (oracle i) t ev).2 ∧
        (liveTypeStep (oracle i) s ev).1.lastTyped =
          (liveTypeStep (oracle i) t ev).1.lastTyped := by
      by_cases hc :
          jsLength t.lastTyped < jsLength ev.text ∧ jsStartsWith ev.text t.lastTyped = true
      · cases oracle i <;> simp [liveTypeStep, h, hc]
      · cases oracle i <;> simp [liveTypeStep, h, hc]
    have ih := runLive_actions_congr oracle rest (i + 1)
      (liveTypeStep (oracle i) s ev).1 (liveTypeStep (oracle i) t ev).1 hstep.2
    simp only [runLive]
    exact ⟨by rw [hstep.1, ih.1], ih.2⟩

/-- C1: on any sequence of live transcript events, the live-type handler
injects a chunk only when the event text strictly extends the previously
typed text while keeping it as a prefix (the chunk being exactly that
extension), and the concatenation of all injected chunks in emission
order equals the final typed-text value — so no chunk repeats a
character that was already injected. -/
theorem c1_live_injection_monotonic :
    (∀ (r : InvokeResult) (st : AppState) (ev : TranscriptionEvent) (c : String),
        c ∈ injected (liveTypeStep r st ev).2 →
          jsLength st.lastTyped < jsLength ev.text ∧
          jsStartsWith ev.text st.lastTyped = true ∧
          c = jsSlice ev.text (jsLength st.lastTyped)) ∧
    (∀ (oracle : Nat → InvokeResult) (st : AppState) (evs : List TranscriptionEvent),
        st.lastTyped = "" →
          concatChunks (injected (runLive oracle 0 st evs).2) =
            (runLive oracle 0 st evs).1.lastTyped) := by
  constructor
  · intro r st ev c hc
    rcases liveTypeStep_cases r st ev with ⟨h1, h2⟩ | ⟨h1, h2, h3, h4⟩
    · rw [h2] at hc
      cases hc
    · rw [h2] at hc
      rcases List.mem_singleton.mp hc with rfl
      exact ⟨h3, h4, rfl⟩
  · intro oracle st evs h0
    rw [runLive_lastTyped oracle evs 0 st, h0, String.empty_append]

/-- Witness for C1 at concrete inputs. -/
theorem c1_witness :
    (jsLength ({ initialState with lastTyped := "ab" } : AppState).lastTyped <
        jsLength (TranscriptionEvent.mk "abc" false).text ∧
      jsStartsWith (TranscriptionEvent.mk "abc" false).text
        ({ initialState with lastTyped := "ab" } : AppState).lastTyped = true ∧
      "c" = jsSlice (TranscriptionEvent.mk "abc" false).text
        (jsLength ({ initialState with lastTyped := "ab" } : AppState).lastTyped)) ∧
    concatChunks (injected (runLive (fun _ => InvokeResult.ok) 0 initialState
        [⟨"hi", false⟩, ⟨"hi there", true⟩]).2) =
      (runLive (fun _ => InvokeResult.ok) 0 initialState
        [⟨"hi", false⟩, ⟨"hi there", true⟩]).1.lastTyped :=
  ⟨c1_live_injection_monotonic.1 InvokeResult.ok { initialState with lastTyped := "ab" }
      ⟨"abc", false⟩ "c" (by decide),
    c1_live_injection_monotonic.2 (fun _ => InvokeResult.ok) initialState
      [⟨"hi", false⟩, ⟨"hi there", true⟩] rfl⟩

/-- C2 counterexample: with "abc" already typed, the revised transcript
"abxy" is longer than the typed text but does not extend it as a prefix;
the live-type handler injects nothing at all, so the portion of the new
transcript beyond the old typed length is not injected, contrary to the
claim that it is still considered for injection. -/
theorem c2_counterexample :
    jsLength ({ initialState with lastTyped := "abc" } : AppState).lastTyped <
      jsLength ("abxy" : String) ∧
    jsStartsWith "abxy" "abc" = false ∧
    (liveTypeStep InvokeResult.ok { initialState with lastTyped := "abc" }
        ⟨"abxy", false⟩).2 = [] ∧
    injected (liveTypeStep InvokeResult.ok { initialState with lastTyped := "abc" }
        ⟨"abxy", false⟩).2 ≠ [jsSlice "abxy" (jsLength "abc")] := by
  decide

/-- C2 amended: when the new transcript is not a prefix-extension of the
previously typed text — it does not start with the typed text, or it is
not longer than it (a shrink) — the live-type handler injects nothing at
all and leaves the state unchanged; in particular it never retypes
already-injected characters, and the portion beyond the old typed length
is not injected either. -/
theorem c2_non_extension_is_noop (r : InvokeResult) (st : AppState)
    (ev : TranscriptionEvent)
    (h : jsStartsWith ev.text st.lastTyped = false ∨
      jsLength ev.text ≤ jsLength st.lastTyped) :
    liveTypeStep r st ev = (st, []) := by
  have hg : ¬ (jsLength st.lastTyped < jsLength ev.text ∧
      jsStartsWith ev.text st.lastTyped = true) := by
    intro hc
    rcases h with h | h
    · rw [hc.2] at h
      exact Bool.noConfusion h
    · exact absurd hc.1 (Nat.not_lt.mpr h)
  simp [liveTypeStep, hg]

/-- Witness for the amended C2 at a concrete shrinking input. -/
theorem c2_witness :
    liveTypeStep InvokeResult.ok { initialState with lastTyped := "abc" } ⟨"ab", true⟩ =
      ({ initialState with lastTyped := "abc" }, []) :=
  c2_non_extension_is_noop InvokeResult.ok { initialState with lastTyped := "abc" }
    ⟨"ab", true⟩ (Or.inr (by decide))

/-- C3: delivering `{"مرحبا", false}` then `{"مرحبا بالعالم", true}` from
the empty initial state yields the transcript "مرحبا بالعالم" and injects
exactly two chunks, in order "مرحبا" then " بالعالم". -/
theorem c3_arabic_two_chunk_scenario :
    (runDeliver (fun _ => InvokeResult.ok) 0 initialState
        [⟨"مرحبا", false⟩, ⟨"مرحبا بالعالم", true⟩]).1.transcription = "مرحبا بالعالم" ∧
    injected (runDeliver (fun _ => InvokeResult.ok) 0 initialState
        [⟨"مرحبا", false⟩, ⟨"مرحبا بالعالم", true⟩]).2 = ["مرحبا", " بالعالم"] := by
  decide

theorem jsTrim_empty : jsTrim "" = "" := by decide

theorem jsLength_empty : jsLength "" = 0 := rfl

/-- A live-type step taken from an empty typed state with a non-empty
event text injects the entire event text as one chunk. -/
theorem liveTypeStep_from_empty (st : AppState) (ev : TranscriptionEvent)
    (h0 : st.lastTyped = "") (h : 0 < jsLength ev.text) :
    liveTypeStep InvokeResult.ok st ev =
      ({ st with lastTyped := ev.text }, [Action.typeTextCmd ev.text true]) := by
  have hg : jsLength st.lastTyped < jsLength ev.text ∧
      jsStartsWith ev.text st.lastTyped = true := by
    rw [h0]
    exact ⟨h, jsStartsWith_empty ev.text⟩
  simp [liveTypeStep, hg, h0, jsLength_empty, jsSlice_zero]
  exact ⟨h, jsStartsWith_empty ev.text⟩

/-- C4 counterexample: with transcript "hello world" and the 5 characters
"hello" already injected live, the stop-and-complete flow invokes
`type_text` on the full trimmed transcript "hello world" — not on the
remaining suffix " world" — retyping the already-injected characters. -/
theorem c4_counterexample :
    jsLength ({ initialState with
        transcription := "hello world"
        lastTyped := "hello"
        isRecording := true } : AppState).lastTyped = 5 ∧
    injected (stopAndComplete InvokeResult.ok InvokeResult.ok
        { initialState with
          transcription := "hello world"
          lastTyped := "hello"
          isRecording := true } "ui:done").2 = ["hello world"] ∧
    (["hello world"] : List String) ≠ [" world"] := by
  decide

/-- C4 amended: a stop command followed by completion injects the entire
trimmed transcript as a single chunk, regardless of how many characters
were already injected live, and then resets the tracked transcript and
typed state to empty; with transcript "hello world" and 5 characters
already injected it injects "hello world", not just " world". -/
theorem c4_stop_completes_full_transcript (rStop : InvokeResult) (st : AppState)
    (reason : String) (h : jsTrim st.transcription ≠ "") :
    injected (stopAndComplete rStop InvokeResult.ok st reason).2 =
      [jsTrim st.transcription] ∧
    (stopAndComplete rStop InvokeResult.ok st reason).1.transcription = "" ∧
    (stopAndComplete rStop InvokeResult.ok st reason).1.lastTyped = "" := by
  cases rStop <;>
    simp [stopAndComplete, stopRecording, completeTranscription, injected, h]

/-- Witness for the amended C4 at the scenario-D state. -/
theorem c4_witness :
    injected (stopAndComplete InvokeResult.ok InvokeResult.ok
        { initialState with transcription := "hello world", lastTyped := "hello" }
        "ui:done").2 =
      [jsTrim ({ initialState with transcription := "hello world", lastTyped := "hello" }
        : AppState).transcription] ∧
    (stopAndComplete InvokeResult.ok InvokeResult.ok
        { initialState with transcription := "hello world", lastTyped := "hello" }
        "ui:done").1.transcription = "" ∧
    (stopAndComplete InvokeResult.ok InvokeResult.ok
        { initialState with transcription := "hello world", lastTyped := "hello" }
        "ui:done").1.lastTyped = "" :=
  c4_stop_completes_full_transcript InvokeResult.ok
    { initialState with transcription := "hello world", lastTyped := "hello" }
    "ui:done" (by decide)

/-- C5: performing the stop-and-complete flow twice injects text only
once: the first completion resets the tracked transcript and typed state
to empty, so the second stop-and-complete performs no text injection —
beyond the stop command its only action is hiding the window. -/
theorem c5_second_stop_injects_nothing (r1 r2 r3 r4 : InvokeResult)
    (st : AppState) (rs1 rs2 : String) :
    (stopAndComplete r1 r2 st rs1).1.transcription = "" ∧
    (stopAndComplete r1 r2 st rs1).1.lastTyped = "" ∧
    (stopAndComplete r3 r4 (stopAndComplete r1 r2 st rs1).1 rs2).2 =
      [Action.stopRecordingCmd rs2, Action.hideWindowCmd] ∧
    injected (stopAndComplete r3 r4 (stopAndComplete r1 r2 st rs1).1 rs2).2 = [] := by
  cases r1 <;> cases r2 <;> cases r3 <;> cases r4 <;>
    refine ⟨rfl, rfl, ?_, ?_⟩ <;>
      simp [stopAndComplete, stopRecording, completeTranscription, injected, jsTrim_empty]

/-- C6 counterexample: cancel resets the typed tracking to empty but no
guard disables the live-type listener, so an in-flight event carrying the
old text "hello", delivered after the cancel, is injected in full — an
injection chunk is emitted after cancel, contrary to the claim. -/
theorem c6_counterexample :
    injected (liveTypeStep InvokeResult.ok
        (onCancel InvokeResult.ok
          { initialState with
            transcription := "hello"
            lastTyped := "hello"
            isRecording := true }).1
        ⟨"hello", false⟩).2 = ["hello"] ∧
    (["hello"] : List String) ≠ ([] : List String) := by
  decide

/-- C6 amended: after a cancel the accumulated transcript and the typed
tracking are discarded (reset to empty), but the live-type listener
remains active: a live transcript event with non-empty text that is still
delivered after the cancel is measured against the now-empty typed state,
so its entire text is injected as a fresh chunk. -/
theorem c6_cancel_discards_but_listener_remains (r : InvokeResult) (st : AppState)
    (ev : TranscriptionEvent) (h : 0 < jsLength ev.text) :
    (onCancel r st).1.transcription = "" ∧
    (onCancel r st).1.lastTyped = "" ∧
    injected (liveTypeStep InvokeResult.ok (onCancel r st).1 ev).2 = [ev.text] := by
  have h1 : (onCancel r st).1.lastTyped = "" := by cases r <;> rfl
  have h2 : (onCancel r st).1.transcription = "" := by cases r <;> rfl
  refine ⟨h2, h1, ?_⟩
  rw [liveTypeStep_from_empty _ ev h1 h]
  simp [injected]

/-- Witness for the amended C6 at a concrete post-cancel delivery. -/
theorem c6_witness :
    (onCancel InvokeResult.ok
        { initialState with transcription := "abc", lastTyped := "abc" }).1.transcription
      = "" ∧
    (onCancel InvokeResult.ok
        { initialState with transcription := "abc", lastTyped := "abc" }).1.lastTyped
      = "" ∧
    injected (liveTypeStep InvokeResult.ok
        (onCancel InvokeResult.ok
          { initialState with transcription := "abc", lastTyped := "abc" }).1
        ⟨"abc", false⟩).2 = [(TranscriptionEvent.mk "abc" false).text] :=
  c6_cancel_discards_but_listener_remains InvokeResult.ok
    { initialState with transcription := "abc", lastTyped := "abc" }
    ⟨"abc", false⟩ (by decide)

/-- C7: a text-injection failure is scoped to the failing chunk: the
error is recorded (surfaced non-fatally), the recording flag and the
transcript are untouched, no stop or cancel command is issued, the typed
offset is not advanced past the failed chunk, nothing counts as injected,
and subsequent live transcript events produce exactly the actions they
would have produced without the failure. -/
theorem c7_injection_failure_chunk_scoped (st : AppState) (ev : TranscriptionEvent)
    (e : String)
    (h : jsLength st.lastTyped < jsLength ev.text ∧
      jsStartsWith ev.text st.lastTyped = true) :
    (liveTypeStep (InvokeResult.err e) st ev).1.lastTyped = st.lastTyped ∧
    (liveTypeStep (InvokeResult.err e) st ev).1.isRecording = st.isRecording ∧
    (liveTypeStep (InvokeResult.err e) st ev).1.transcription = st.transcription ∧
    (liveTypeStep (InvokeResult.err e) st ev).1.error = some e ∧
    (liveTypeStep (InvokeResult.err e) st ev).2 =
      [Action.typeTextCmd (jsSlice ev.text (jsLength st.lastTyped)) false] ∧
    injected (liveTypeStep (InvokeResult.err e) st ev).2 = [] ∧
    ∀ (oracle : Nat → InvokeResult) (i : Nat) (rest : List TranscriptionEvent),
      (runLive oracle i (liveTypeStep (InvokeResult.err e) st ev).1 rest).2 =
        (runLive oracle i st rest).2 := by
  have hstep : liveTypeStep (InvokeResult.err e) st ev =
      ({ st with error := some e },
        [Action.typeTextCmd (jsSlice ev.text (jsLength st.lastTyped)) false]) := by
    simp [liveTypeStep, h]
  rw [hstep]
  refine ⟨rfl, rfl, rfl, rfl, rfl, rfl, ?_⟩
  intro oracle i rest
  exact (runLive_actions_congr oracle rest i { st with error := some e } st rfl).1

/-- Witness for C7 at a concrete failing injection. -/
theorem c7_witness :
    (liveTypeStep (InvokeResult.err "boom") initialState ⟨"hi", false⟩).1.lastTyped =
      initialState.lastTyped ∧
    (liveTypeStep (InvokeResult.err "boom") initialState ⟨"hi", false⟩).1.isRecording =
      initialState.isRecording ∧
    (liveTypeStep (InvokeResult.err "boom") initialState ⟨"hi", false⟩).1.transcription =
      initialState.transcription ∧
    (liveTypeStep (InvokeResult.err "boom") initialState ⟨"hi", false⟩).1.error =
      some "boom" ∧
    (liveTypeStep (InvokeResult.err "boom") initialState ⟨"hi", false⟩).2 =
      [Action.typeTextCmd
        (jsSlice (TranscriptionEvent.mk "hi" false).text
          (jsLength initialState.lastTyped)) false] ∧
    injected (liveTypeStep (InvokeResult.err "boom") initialState ⟨"hi", false⟩).2 = [] ∧
    (runLive (fun _ => InvokeResult.ok) 0
        (liveTypeStep (InvokeResult.err "boom") initialState ⟨"hi", false⟩).1
        [⟨"hi there", false⟩]).2 =
      (runLive (fun _ => InvokeResult.ok) 0 initialState [⟨"hi there", false⟩]).2 := by
  have hc := c7_injection_failure_chunk_scoped initialState ⟨"hi", false⟩ "boom" (by decide)
  exact ⟨hc.1, hc.2.1, hc.2.2.1, hc.2.2.2.1, hc.2.2.2.2.1, hc.2.2.2.2.2.1,
    hc.2.2.2.2.2.2 (fun _ => InvokeResult.ok) 0 [⟨"hi there", false⟩]⟩

/-- C8: a transcription-error event whose message contains "403" or
"Forbidden" marks the session not recording, records the error, deletes
both stored credential keys and drops the credential flag — putting the
presentation layer into the state that renders the credential setup form —
while an error message containing neither leaves the stored credential
and the credential flag untouched. -/
theorem c8_auth_rejection_clears_credential (st : AppState) (msg : String) :
    ((jsIncludes msg "403" = true ∨ jsIncludes msg "Forbidden" = true) →
      (transcriptionErrorStep st msg).isRecording = false ∧
      (transcriptionErrorStep st msg).error = some msg ∧
      (transcriptionErrorStep st msg).storage.sonioxApiKey = none ∧
      (transcriptionErrorStep st msg).storage.sonioxApiKeySetFlag = none ∧
      (transcriptionErrorStep st msg).apiKeySet = false ∧
      rendersApiKeySetup (transcriptionErrorStep st msg) = true) ∧
    (jsIncludes msg "403" = false → jsIncludes msg "Forbidden" = false →
      (transcriptionErrorStep st msg).isRecording = false ∧
      (transcriptionErrorStep st msg).error = some msg ∧
      (transcriptionErrorStep st msg).storage = st.storage ∧
      (transcriptionErrorStep st msg).apiKeySet = st.apiKeySet) := by
  constructor
  · intro h
    rcases h with h | h <;> simp [transcriptionErrorStep, h, rendersApiKeySetup]
  · intro h1 h2
    simp [transcriptionErrorStep, h1, h2]

/-- Witness for C8: an authorization-style message clears the credential,
an unrelated message does not. -/
theorem c8_witness :
    ((transcriptionErrorStep initialState "HTTP 403").isRecording = false ∧
      (transcriptionErrorStep initialState "HTTP 403").error = some "HTTP 403" ∧
      (transcriptionErrorStep initialState "HTTP 403").storage.sonioxApiKey = none ∧
      (transcriptionErrorStep initialState "HTTP 403").storage.sonioxApiKeySetFlag = none ∧
      (transcriptionErrorStep initialState "HTTP 403").apiKeySet = false ∧
      rendersApiKeySetup (transcriptionErrorStep initialState "HTTP 403") = true) ∧
    ((transcriptionErrorStep initialState "device lost").isRecording = false ∧
      (transcriptionErrorStep initialState "device lost").error = some "device lost" ∧
      (transcriptionErrorStep initialState "device lost").storage = initialState.storage ∧
      (transcriptionErrorStep initialState "device lost").apiKeySet =
        initialState.apiKeySet) :=
  ⟨(c8_auth_rejection_clears_credential initialState "HTTP 403").1 (Or.inl (by decide)),
    (c8_auth_rejection_clears_credential initialState "device lost").2
      (by decide) (by decide)⟩

/-- C9 counterexample: submitting the credential writes it to the
persistent browser-local storage (both keys) and schedules an automatic
recording start — contrary to the claim that no persistent storage is
written and no other state is modified. -/
theorem c9_counterexample :
    (handleApiKeySubmit InvokeResult.ok initialState "sk-test").1.storage.sonioxApiKey =
      some "sk-test" ∧
    (handleApiKeySubmit InvokeResult.ok initialState "sk-test").1.storage.sonioxApiKeySetFlag =
      some "true" ∧
    (some "sk-test" : Option String) ≠ (none : Option String) ∧
    Action.scheduleStartCmd ∈ (handleApiKeySubmit InvokeResult.ok initialState "sk-test").2 := by
  decide

/-- C9 amended: a successfully submitted credential is forwarded to the
backend, persisted to browser-local storage under the keys
soniox_api_key and soniox_api_key_set, the in-memory credential flag is
raised, and an automatic recording start is scheduled; the transcript,
typed state, recording flag and error are not modified by the
submission. -/
theorem c9_submit_persists_credential (st : AppState) (k : String) :
    handleApiKeySubmit InvokeResult.ok st k =
      ({ st with
          apiKeySet := true
          storage := { sonioxApiKey := some k, sonioxApiKeySetFlag := some "true" } },
        [Action.setApiKeyCmd k, Action.scheduleStartCmd]) ∧
    (handleApiKeySubmit InvokeResult.ok st k).1.transcription = st.transcription ∧
    (handleApiKeySubmit InvokeResult.ok st k).1.lastTyped = st.lastTyped ∧
    (handleApiKeySubmit InvokeResult.ok st k).1.isRecording = st.isRecording ∧
    (handleApiKeySubmit InvokeResult.ok st k).1.error = st.error :=
  ⟨rfl, rfl, rfl, rfl, rfl⟩

/-- C10: the Ctrl+Enter (without Shift) finish shortcut stops the
recording and completes the transcription only when a recording is
active, the trimmed transcription is non-empty, and at least 1000 ms have
elapsed since the recording started; whenever any of the three conditions
fails the key press emits no action and leaves the state unchanged. -/
theorem c10_ctrl_enter_guards (rEsc rStop rType : InvokeResult) (now : Int)
    (st : AppState) :
    (st.isRecording = false →
      handleKeyDown rEsc rStop rType now st ⟨"Enter", true, false⟩ = (st, [])) ∧
    (jsTrim st.transcription = "" →
      handleKeyDown rEsc rStop rType now st ⟨"Enter", true, false⟩ = (st, [])) ∧
    (now - st.lastRecordingStart < 1000 →
      handleKeyDown rEsc rStop rType now st ⟨"Enter", true, false⟩ = (st, [])) ∧
    (st.isRecording = true → jsTrim st.transcription ≠ "" →
      1000 ≤ now - st.lastRecordingStart →
      handleKeyDown rEsc rStop rType now st ⟨"Enter", true, false⟩ =
        stopAndComplete rStop rType st "ui:ctrl-enter") := by
  refine ⟨?_, ?_, ?_, ?_⟩
  · intro h
    simp [handleKeyDown, h]
  · intro h
    by_cases hr : st.isRecording = false <;> simp [handleKeyDown, h, hr]
  · intro h
    by_cases hr : st.isRecording = false <;>
      by_cases ht : jsTrim st.transcription = "" <;>
        simp [handleKeyDown, h, hr, ht]
  · intro h1 h2 h3
    simp [handleKeyDown, h1, h2, Int.not_lt.mpr h3]

/-- Witness for C10 at four concrete key presses. -/
theorem c10_witness :
    handleKeyDown InvokeResult.ok InvokeResult.ok InvokeResult.ok 5000 initialState
      ⟨"Enter", true, false⟩ = (initialState, []) ∧
    handleKeyDown InvokeResult.ok InvokeResult.ok InvokeResult.ok 5000
      ({ initialState with isRecording := true, transcription := "   " })
      ⟨"Enter", true, false⟩ =
      ({ initialState with isRecording := true, transcription := "   " }, []) ∧
    handleKeyDown InvokeResult.ok InvokeResult.ok InvokeResult.ok 500
      ({ initialState with isRecording := true, transcription := "hey" })
      ⟨"Enter", true, false⟩ =
      ({ initialState with isRecording := true, transcription := "hey" }, []) ∧
    handleKeyDown InvokeResult.ok InvokeResult.ok InvokeResult.ok 5000
      ({ initialState with isRecording := true, transcription := "hello world" })
      ⟨"Enter", true, false⟩ =
      stopAndComplete InvokeResult.ok InvokeResult.ok
        { initialState with isRecording := true, transcription := "hello world" }
        "ui:ctrl-enter" :=
  ⟨(c10_ctrl_enter_guards InvokeResult.ok InvokeResult.ok InvokeResult.ok 5000
      initialState).1 rfl,
    (c10_ctrl_enter_guards InvokeResult.ok InvokeResult.ok InvokeResult.ok 5000
      { initialState with isRecording := true, transcription := "   " }).2.1 (by decide),
    (c10_ctrl_enter_guards InvokeResult.ok InvokeResult.ok InvokeResult.ok 500
      { initialState with isRecording := true, transcription := "hey" }).2.2.1 (by decide),
    (c10_ctrl_enter_guards InvokeResult.ok InvokeResult.ok InvokeResult.ok 5000
      { initialState with isRecording := true, transcription := "hello world" }).2.2.2
      rfl (by decide) (by decide)⟩

end LocalWispr
